import Mathlib

/-!
Verification of the `cancel` crate (wez/cancel-rs), a cooperative
cancellation primitive.

The Rust source (src/lib.rs) defines a `Token` holding an `AtomicBool`
cancellation flag and an optional `Instant` deadline, plus an error
marker `Canceled`.

Shallow embedding choices:
- `Instant` is modelled as `Nat` (a reading of the monotonic clock).
  `Instant::now() > *deadline` in the source becomes `deadline < now`.
- The `AtomicBool` flag is modelled as a plain `Bool` field; sequential
  state passing stands in for the atomic load/store pairs (the atomics
  only matter for cross-thread visibility, which is outside a shallow
  sequential embedding).
- Methods taking `&self` and mutating through the atomic are modelled as
  functions from `Token` (and, where the source reads the clock, a `now`
  argument) to a result paired with the successor `Token` state.
- `Result<(), Canceled>` becomes `Except Canceled Unit`.
-/

/-- Embeds `struct Canceled {}`: the zero-field error marker returned by
`Token::check_cancel`. -/
structure Canceled where
  deriving Repr, DecidableEq

/-- Embeds the `Display` impl for `Canceled`:
`write!(f, "Operation was Canceled")`. -/
def Canceled.fmt (_ : Canceled) : String :=
  "Operation was Canceled"

/-- Embeds `struct Token { canceled: AtomicBool, deadline: Option<Instant> }`. -/
structure Token where
  canceled : Bool
  deadline : Option Nat
  deriving Repr, DecidableEq

/-- Embeds the derived `Default` impl for `Token`: field-wise defaults,
`AtomicBool::default()` is `false` and `Option::default()` is `None`. -/
def Token.default : Token :=
  { canceled := false, deadline := none }

/-- Embeds `Token::new`: `Default::default()`. -/
def Token.new : Token :=
  Token.default

/-- Embeds `Token::with_duration`: the deadline is the clock reading taken
at construction time plus the duration. The construction-time clock
reading `now` is passed explicitly. -/
def Token.with_duration (now duration : Nat) : Token :=
  { canceled := false, deadline := some (now + duration) }

/-- Embeds `Token::with_deadline`. -/
def Token.with_deadline (deadline : Nat) : Token :=
  { canceled := false, deadline := some deadline }

/-- Embeds `Token::cancel`: `self.canceled.store(true, Ordering::Release)`. -/
def Token.cancel (t : Token) : Token :=
  { t with canceled := true }

/-- Embeds `Token::was_canceled`: `self.canceled.load(Ordering::Acquire)`. -/
def Token.was_canceled (t : Token) : Bool :=
  t.canceled

/-- Embeds `Token::is_canceled`. Returns the boolean result paired with
the successor state (the source mutates through `self.cancel()` on the
latch path). `Instant::now()` is passed explicitly as `now`. -/
def Token.is_canceled (t : Token) (now : Nat) : Bool × Token :=
  if t.was_canceled then
    (true, t)
  else
    match t.deadline with
    | some deadline =>
      if deadline < now then
        (true, t.cancel)
      else
        (false, t)
    | none => (false, t)

/-- Embeds `Token::check_cancel`: calls `is_canceled` once and maps the
boolean to `Err(Canceled {})` or `Ok(())`. -/
def Token.check_cancel (t : Token) (now : Nat) : Except Canceled Unit × Token :=
  let r := t.is_canceled now
  if r.1 then
    (Except.error {}, r.2)
  else
    (Except.ok (), r.2)

/-- One public operation on a token, with the clock reading the source
would observe attached to the clock-consulting operations. -/
inductive Op where
  | cancel : Op
  | wasCanceled : Op
  | isCanceled (now : Nat) : Op
  | checkCancel (now : Nat) : Op
  deriving Repr, DecidableEq

/-- State effect of one operation: `cancel` stores true, `was_canceled`
is a pure load, `is_canceled` and `check_cancel` may latch. -/
def Token.step (t : Token) : Op → Token
  | Op.cancel => t.cancel
  | Op.wasCanceled => t
  | Op.isCanceled now => (t.is_canceled now).2
  | Op.checkCancel now => (t.check_cancel now).2

/-- Run a sequence of operations from a starting state. -/
def Token.run (t : Token) : List Op → Token
  | [] => t
  | op :: ops => (t.step op).run ops

/-- `cancel` called N times in sequence. -/
def Token.cancelN (t : Token) : Nat → Token
  | 0 => t
  | n + 1 => t.cancel.cancelN n

/-- An operation is passive with respect to a deadline `d` when it is not
an explicit cancel and, if it consults the clock, its reading is strictly
before `d`. -/
def Op.passiveBefore (d : Nat) : Op → Bool
  | Op.cancel => false
  | Op.wasCanceled => true
  | Op.isCanceled now => decide (now < d)
  | Op.checkCancel now => decide (now < d)

/-! ## Helper lemmas (shared) -/

theorem Token.cancel_canceled (t : Token) : t.cancel.canceled = true := rfl

theorem Token.cancel_deadline (t : Token) : t.cancel.deadline = t.deadline := rfl

theorem Token.cancel_idem (t : Token) : t.cancel.cancel = t.cancel := rfl

theorem Token.is_canceled_of_canceled (t : Token) (now : Nat)
    (h : t.canceled = true) : t.is_canceled now = (true, t) := by
  simp [Token.is_canceled, Token.was_canceled, h]

theorem Token.is_canceled_snd_deadline (t : Token) (now : Nat) :
    (t.is_canceled now).2.deadline = t.deadline := by
  unfold Token.is_canceled
  cases h : t.was_canceled with
  | true => simp
  | false =>
    cases hd : t.deadline with
    | none => simp [hd]
    | some d =>
      by_cases hlt : d < now <;> simp [hd, hlt, Token.cancel_deadline]

theorem Token.check_cancel_snd (t : Token) (now : Nat) :
    (t.check_cancel now).2 = (t.is_canceled now).2 := by
  unfold Token.check_cancel
  by_cases h : (t.is_canceled now).1 <;> simp [h]

theorem Token.step_deadline (t : Token) (op : Op) :
    (t.step op).deadline = t.deadline := by
  cases op with
  | cancel => exact t.cancel_deadline
  | wasCanceled => rfl
  | isCanceled now => exact t.is_canceled_snd_deadline now
  | checkCancel now =>
    show (t.check_cancel now).2.deadline = t.deadline
    rw [t.check_cancel_snd now]
    exact t.is_canceled_snd_deadline now

theorem Token.run_deadline (ops : List Op) (t : Token) :
    (t.run ops).deadline = t.deadline := by
  induction ops generalizing t with
  | nil => rfl
  | cons op ops ih =>
    show ((t.step op).run ops).deadline = t.deadline
    rw [ih (t.step op), t.step_deadline op]

theorem Token.step_canceled_mono (t : Token) (op : Op)
    (h : t.canceled = true) : (t.step op).canceled = true := by
  cases op with
  | cancel => exact t.cancel_canceled
  | wasCanceled => exact h
  | isCanceled now =>
    show (t.is_canceled now).2.canceled = true
    rw [t.is_canceled_of_canceled now h]
    exact h
  | checkCancel now =>
    show (t.check_cancel now).2.canceled = true
    rw [t.check_cancel_snd now, t.is_canceled_of_canceled now h]
    exact h

theorem Token.run_canceled_mono (ops : List Op) (t : Token)
    (h : t.canceled = true) : (t.run ops).canceled = true := by
  induction ops generalizing t with
  | nil => exact h
  | cons op ops ih =>
    exact ih (t.step op) (t.step_canceled_mono op h)

theorem Token.step_passive (t : Token) (d : Nat) (op : Op)
    (hd : t.deadline = some d) (hc : t.canceled = false)
    (hp : op.passiveBefore d = true) : t.step op = t := by
  cases op with
  | cancel => simp [Op.passiveBefore] at hp
  | wasCanceled => rfl
  | isCanceled now =>
    simp only [Op.passiveBefore, decide_eq_true_eq] at hp
    show (t.is_canceled now).2 = t
    simp [Token.is_canceled, Token.was_canceled, hc, hd, Nat.not_lt.mpr (Nat.le_of_lt hp)]
  | checkCancel now =>
    simp only [Op.passiveBefore, decide_eq_true_eq] at hp
    show (t.check_cancel now).2 = t
    rw [t.check_cancel_snd now]
    simp [Token.is_canceled, Token.was_canceled, hc, hd, Nat.not_lt.mpr (Nat.le_of_lt hp)]

/-! ## Claims -/

/-- C1: `is_canceled` follows exactly the four-case decision procedure of
the spec: (a) already canceled: return true, state unchanged; (b) deadline
set and the clock reading strictly after it: latch the flag and return
true; (c) deadline set but not yet passed (including a reading exactly
equal to the deadline): return false, state unchanged; (d) no deadline and
not canceled: return false, state unchanged. -/
theorem is_canceled_decision_procedure (t : Token) (now : Nat) :
    (t.canceled = true → t.is_canceled now = (true, t)) ∧
    (∀ d, t.canceled = false → t.deadline = some d → d < now →
      t.is_canceled now = (true, t.cancel)) ∧
    (∀ d, t.canceled = false → t.deadline = some d → now ≤ d →
      t.is_canceled now = (false, t)) ∧
    (t.canceled = false → t.deadline = none → t.is_canceled now = (false, t)) := by
  refine ⟨fun h => t.is_canceled_of_canceled now h, ?_, ?_, ?_⟩
  · intro d hc hd hlt
    simp [Token.is_canceled, Token.was_canceled, hc, hd, hlt]
  · intro d hc hd hle
    simp [Token.is_canceled, Token.was_canceled, hc, hd, Nat.not_lt.mpr hle]
  · intro hc hd
    simp [Token.is_canceled, Token.was_canceled, hc, hd]

/-- Witness for C1: all four branches evaluated at concrete states,
including the boundary case where the clock reading equals the deadline. -/
theorem is_canceled_decision_procedure_witness :
    (Token.mk true (some 5)).is_canceled 9 = (true, Token.mk true (some 5)) ∧
    (Token.mk false (some 5)).is_canceled 6 = (true, Token.mk true (some 5)) ∧
    (Token.mk false (some 5)).is_canceled 5 = (false, Token.mk false (some 5)) ∧
    (Token.mk false none).is_canceled 7 = (false, Token.mk false none) :=
  ⟨(is_canceled_decision_procedure (Token.mk true (some 5)) 9).1 rfl,
   (is_canceled_decision_procedure (Token.mk false (some 5)) 6).2.1 5 rfl rfl (by decide),
   (is_canceled_decision_procedure (Token.mk false (some 5)) 5).2.2.1 5 rfl rfl (by decide),
   (is_canceled_decision_procedure (Token.mk false none) 7).2.2.2 rfl rfl⟩

/-- C2: for every state and clock reading, `check_cancel` succeeds exactly
when `is_canceled` would return false, fails with the `Canceled` error
exactly when it would return true, and leaves the state exactly as the
wrapped `is_canceled` call does. -/
theorem check_cancel_agrees_is_canceled (t : Token) (now : Nat) :
    ((t.is_canceled now).1 = true →
      (t.check_cancel now).1 = Except.error Canceled.mk) ∧
    ((t.is_canceled now).1 = false →
      (t.check_cancel now).1 = Except.ok ()) ∧
    (t.check_cancel now).2 = (t.is_canceled now).2 := by
  refine ⟨?_, ?_, t.check_cancel_snd now⟩
  · intro h
    simp [Token.check_cancel, h]
  · intro h
    simp [Token.check_cancel, h]

/-- Witness for C2: a canceled token fails and a fresh token succeeds. -/
theorem check_cancel_agrees_is_canceled_witness :
    (Token.mk true none).check_cancel 0 = (Except.error Canceled.mk, Token.mk true none) ∧
    (Token.mk false none).check_cancel 0 = (Except.ok (), Token.mk false none) :=
  ⟨Prod.ext ((check_cancel_agrees_is_canceled (Token.mk true none) 0).1 rfl)
     ((check_cancel_agrees_is_canceled (Token.mk true none) 0).2.2),
   Prod.ext ((check_cancel_agrees_is_canceled (Token.mk false none) 0).2.1 rfl)
     ((check_cancel_agrees_is_canceled (Token.mk false none) 0).2.2)⟩

/-- C3: cancellation is monotonic. Once the flag is true, no sequence of
public operations makes it false again; once `is_canceled` has returned
true the successor state has the flag set, so every subsequent
`is_canceled` call returns true. -/
theorem canceled_monotonic (t : Token) :
    (∀ ops : List Op, t.canceled = true → (t.run ops).canceled = true) ∧
    (∀ now, (t.is_canceled now).1 = true →
      ∀ ops : List Op, ∀ later,
        (((t.is_canceled now).2.run ops).is_canceled later).1 = true) := by
  constructor
  · intro ops h
    exact Token.run_canceled_mono ops t h
  · intro now h ops later
    have hsnd : (t.is_canceled now).2.canceled = true := by
      unfold Token.is_canceled at h ⊢
      cases hw : t.was_canceled with
      | true => simpa [hw, Token.was_canceled] using hw
      | false =>
        cases hd : t.deadline with
        | none => simp [hw, hd] at h
        | some d =>
          by_cases hlt : d < now
          · simp [hw, hd, hlt, Token.cancel_canceled]
          · simp [hw, hd, hlt] at h
    have hrun := Token.run_canceled_mono ops (t.is_canceled now).2 hsnd
    rw [Token.is_canceled_of_canceled _ later hrun]

/-- Witness for C3: a token whose deadline latch fired keeps reporting
true through a later mix of operations. -/
theorem canceled_monotonic_witness :
    ((Token.mk false (some 3)).is_canceled 4).1 = true ∧
    ((((Token.mk false (some 3)).is_canceled 4).2.run
        [Op.wasCanceled, Op.checkCancel 0, Op.isCanceled 1]).is_canceled 0).1 = true ∧
    ((Token.mk true none).run [Op.isCanceled 0, Op.cancel]).canceled = true :=
  ⟨by decide,
   (canceled_monotonic (Token.mk false (some 3))).2 4 (by decide)
     [Op.wasCanceled, Op.checkCancel 0, Op.isCanceled 1] 0,
   (canceled_monotonic (Token.mk true none)).1 [Op.isCanceled 0, Op.cancel] rfl⟩

/-- C4: the flag never becomes true passively. For a token with a deadline
and the flag not yet set, running any sequence of operations that contains
no `cancel` and in which every `is_canceled`/`check_cancel` call happens
strictly before the deadline leaves `was_canceled` returning false:
deadline expiry alone, without a latching query, never flips the flag. -/
theorem no_passive_cancellation (t : Token) (d : Nat)
    (hc : t.canceled = false) (hd : t.deadline = some d)
    (ops : List Op) (hp : ∀ op ∈ ops, op.passiveBefore d = true) :
    (t.run ops).was_canceled = false := by
  induction ops generalizing t with
  | nil => exact hc
  | cons op ops ih =>
    show ((t.step op).run ops).was_canceled = false
    rw [t.step_passive d op hd hc (hp op (List.mem_cons_self op ops))]
    exact ih t hc hd (fun o ho => hp o (List.mem_cons_of_mem op ho))

/-- Witness for C4: a token with deadline 5 stays uncanceled through
pure reads and queries strictly before the deadline. -/
theorem no_passive_cancellation_witness :
    (Token.mk false (some 5)).canceled = false ∧
    ((Token.mk false (some 5)).run
      [Op.wasCanceled, Op.isCanceled 4, Op.checkCancel 3, Op.isCanceled 0]).was_canceled
      = false :=
  ⟨rfl,
   no_passive_cancellation (Token.mk false (some 5)) 5 rfl rfl
     [Op.wasCanceled, Op.isCanceled 4, Op.checkCancel 3, Op.isCanceled 0]
     (by decide)⟩

/-- C5: `cancel` is idempotent and unconditional. For every token and
every N at least 1, N successive `cancel` calls produce exactly the state
one call produces; the flag is true afterwards and `was_canceled` returns
true. (`cancel` is a total function, so no call fails.) -/
theorem cancel_idempotent (t : Token) (n : Nat) (h : 1 ≤ n) :
    t.cancelN n = t.cancel ∧
    (t.cancelN n).canceled = true ∧
    (t.cancelN n).was_canceled = true := by
  have key : t.cancelN n = t.cancel := by
    induction n generalizing t with
    | zero => exact absurd h (by decide)
    | succ m ih =>
      cases m with
      | zero => rfl
      | succ k =>
        show (t.cancel).cancelN (k + 1) = t.cancel
        rw [ih t.cancel (Nat.succ_le_succ (Nat.zero_le k)), t.cancel_idem]
  exact ⟨key, by rw [key]; exact t.cancel_canceled,
    by rw [key]; exact t.cancel_canceled⟩

/-- Witness for C5: three cancels on a fresh token equal one cancel. -/
theorem cancel_idempotent_witness :
    Token.new.cancelN 3 = Token.new.cancel ∧
    (Token.new.cancelN 3).was_canceled = true :=
  ⟨(cancel_idempotent Token.new 3 (by decide)).1,
   (cancel_idempotent Token.new 3 (by decide)).2.2⟩

/-- C6: for every construction-time clock reading and every duration,
`with_duration` yields a token with the flag false and the deadline equal
to that clock reading plus the duration, and no later sequence of
operations ever changes the deadline (it is computed once, never
recomputed). The constructor is a total function, so it never fails. -/
theorem with_duration_spec (now duration : Nat) :
    Token.with_duration now duration =
      { canceled := false, deadline := some (now + duration) } ∧
    (∀ ops : List Op,
      ((Token.with_duration now duration).run ops).deadline = some (now + duration)) := by
  refine ⟨rfl, fun ops => ?_⟩
  rw [Token.run_deadline ops]
  rfl

/-- C7: `was_canceled` is a pure read: it returns exactly the flag, its
value depends only on the flag (never on the deadline or a clock reading,
which it does not even receive), and as an operation it leaves the whole
state unchanged. -/
theorem was_canceled_pure_read (t : Token) :
    t.was_canceled = t.canceled ∧
    t.step Op.wasCanceled = t ∧
    (∀ u : Token, u.canceled = t.canceled → u.was_canceled = t.was_canceled) := by
  exact ⟨rfl, rfl, fun u h => h⟩

/-- Witness for C7: two tokens sharing the flag but differing in deadline
agree on `was_canceled`, and the read leaves the state alone. -/
theorem was_canceled_pure_read_witness :
    (Token.mk false (some 7)).was_canceled = (Token.mk false none).was_canceled ∧
    (Token.mk false (some 7)).step Op.wasCanceled = Token.mk false (some 7) :=
  ⟨(was_canceled_pure_read (Token.mk false none)).2.2 (Token.mk false (some 7)) rfl,
   (was_canceled_pure_read (Token.mk false (some 7))).2.1⟩

/-- C8: the deadline component is fixed at construction: every sequence of
public operations (cancel, was_canceled, is_canceled, check_cancel) leaves
the deadline of every token exactly as it was, and each constructor sets
it as described (absent for `new`/`default`, present otherwise). -/
theorem deadline_never_mutated :
    (∀ (t : Token) (ops : List Op), (t.run ops).deadline = t.deadline) ∧
    Token.new.deadline = none ∧
    (∀ now duration, (Token.with_duration now duration).deadline = some (now + duration)) ∧
    (∀ d, (Token.with_deadline d).deadline = some d) :=
  ⟨fun t ops => Token.run_deadline ops t, rfl, fun _ _ => rfl, fun _ => rfl⟩

/-- C9: the `Canceled` error carries no data (any two values are equal,
it being a zero-field structure) and its display output is exactly the
string "Operation was Canceled" for every instance. -/
theorem canceled_error_display :
    (∀ a b : Canceled, a = b) ∧
    (∀ c : Canceled, c.fmt = "Operation was Canceled") :=
  ⟨fun a b => by cases a; cases b; rfl, fun _ => rfl⟩

/-- C10: `Token::new` and the derived `Default` construct observably
identical tokens: the same state, with the flag false and no deadline. -/
theorem new_eq_default :
    Token.new = Token.default ∧
    Token.new.canceled = false ∧ Token.new.deadline = none ∧
    Token.default.canceled = false ∧ Token.default.deadline = none :=
  ⟨rfl, rfl, rfl, rfl, rfl⟩
